import Mathlib

/-!
Shallow embedding of the concurrent orchestration core of the csp-resources
repository (`utils.py` and `awssvc/session.py`), together with theorems
checking the natural-language specification against it.

Concurrency is modelled by making the completion order explicit: each
executor takes its branches in the order their futures complete, so a
statement "regardless of completion order" is quantified over permutations
of that list.  A branch that may raise is modelled with `Except String`,
the error text standing for `str(e)`.
-/

namespace CspResources

/-! ## DiscoveryExecutor: `utils.execute_discovery_tasks`

A task is submitted with `func`/`args` and either returns a list of items
or raises.  The executor iterates `as_completed`, extending `all_resources`
with each successful task's result and skipping failed ones.  We take the
input list already in completion order; each entry is the outcome
`future.result()` would produce. -/

/-- `execute_discovery_tasks` from `utils.py` (lines 509-553): fold over the
completed tasks, extending the accumulator with each successful result and
contributing nothing for a task that raised. -/
def execute_discovery_tasks (tasks : List (Except String (List α))) : List α :=
  tasks.foldl
    (fun acc t =>
      match t with
      | .ok resources => acc ++ resources
      | .error _ => acc)
    []

/-- Outcome of one task, as an `Option`: `some` its items on success. -/
def taskItems : Except String (List α) → Option (List α)
  | .ok resources => some resources
  | .error _ => none

/-! ## CloudAggregator: `utils.discover_across_clouds`

The input is the `(cloud_name, outcome)` pairs in the order their futures
complete.  Durations and timestamps are real-time quantities and are not
modelled; the stats fields the claims talk about are `status`, `count` and
`error`. -/

structure ProviderStats where
  status : String
  count : Nat
  error : Option String
  deriving Repr, DecidableEq

structure DiscoverOutcome (α : Type) where
  items : List α
  cloudStats : List (String × ProviderStats)
  allStats : ProviderStats
  deriving Repr

/-- One iteration of the `as_completed` loop in `discover_across_clouds`:
extend `all_resources` on success, and write the provider's stats record
(success with the count, or failed with count 0 and the error text). -/
def dacStep (acc : List α × List (String × ProviderStats))
    (p : String × Except String (List α)) :
    List α × List (String × ProviderStats) :=
  match p.2 with
  | .ok resources =>
      (acc.1 ++ resources,
       acc.2 ++ [(p.1, ⟨"success", resources.length, none⟩)])
  | .error e =>
      (acc.1, acc.2 ++ [(p.1, ⟨"failed", 0, some e⟩)])

/-- The stats record the `as_completed` loop writes for one provider. -/
def providerStatsOf : Except String (List α) → ProviderStats
  | .ok resources => ⟨"success", resources.length, none⟩
  | .error e => ⟨"failed", 0, some e⟩

/-- `discover_across_clouds` from `utils.py` (lines 374-442): the
`as_completed` loop extends `all_resources` on success and records one stats
record per provider; afterwards the `all` record is written with the merged
count and status `success`. -/
def discover_across_clouds (provs : List (String × Except String (List α))) :
    DiscoverOutcome α :=
  let out := provs.foldl dacStep ([], [])
  { items := out.1
    cloudStats := out.2
    allStats := ⟨"success", out.1.length, none⟩ }

/-! ## IdentifierResolver: `utils.find_items_by_identifier`

An item is an associative record; the function only reads the fields named
by `id_key` and `name_key`, so we parameterize over two projections
`getId getName : α → Option String` standing for `item.get(key)`.  A field
participates in the lookup maps only when it is truthy (present and not the
empty string), mirroring `if item.get(id_key)`. -/

/-- Python truthiness of an optional string field (`if item.get(key)`). -/
def truthyStr : Option String → Bool
  | some s => s ≠ ""
  | none => false

/-- ASCII decimal digit test, as `int()` accepts. -/
def isDecDigit (c : Char) : Bool := '0' ≤ c && c ≤ '9'

/-- After a leading digit, `int()` accepts digits with single underscores
strictly between digits. -/
def digitsRest : List Char → Bool
  | [] => true
  | '_' :: c :: rest => isDecDigit c && digitsRest rest
  | c :: rest => isDecDigit c && digitsRest rest

/-- A nonempty digit group: leading digit, then `digitsRest`. -/
def validDigits : List Char → Bool
  | [] => false
  | c :: rest => isDecDigit c && digitsRest rest

/-- Numeric value of a digit group, underscores skipped. -/
def digitsVal (cs : List Char) : Nat :=
  (cs.filter (fun c => c ≠ '_')).foldl
    (fun acc c => 10 * acc + (c.toNat - '0'.toNat)) 0

/-- `int(token)` on an already-stripped token: optional sign then a digit
group, `none` when `int()` would raise `ValueError`. -/
def pyParseInt (s : String) : Option Int :=
  match s.toList with
  | '+' :: rest => if validDigits rest then some (digitsVal rest) else none
  | '-' :: rest => if validDigits rest then some (-(digitsVal rest : Int)) else none
  | cs => if validDigits cs then some (digitsVal cs) else none

/-- Lookup in the dict comprehension `{item.get(key): item for item in items
if item.get(key)}`: only truthy fields become keys and a later item
overwrites an earlier one with the same key, so the lookup finds the last
qualifying item. -/
def fieldMapLookup (get : α → Option String) (items : List α) (tok : String) :
    Option α :=
  (items.filter (fun it => truthyStr (get it))).reverse.find?
    (fun it => get it == some tok)

/-- Resolution of one trimmed token by the three-tier priority of the loop
body in `find_items_by_identifier` (lines 354-369 of `utils.py`):
integer tokens are 1-based indices (out of range selects nothing),
otherwise the id map, otherwise the name map, otherwise nothing. -/
def resolveToken (getId getName : α → Option String) (items : List α)
    (tok : String) : Option α :=
  match pyParseInt tok with
  | some n =>
      if 1 ≤ n ∧ n ≤ (items.length : Int) then items.get? (n - 1).toNat
      else none
  | none =>
      (fieldMapLookup getId items tok).or (fieldMapLookup getName items tok)

/-- Python `str.split(',')` on the character list: every comma separates,
so `""` gives one empty token and `"a,,b"` gives an empty middle token. -/
def splitComma : List Char → List (List Char)
  | [] => [[]]
  | ',' :: rest => [] :: splitComma rest
  | c :: rest =>
      match splitComma rest with
      | [] => [[c]]
      | group :: groups => (c :: group) :: groups

/-- `identifiers.split(',')` as a string operation. -/
def pySplitComma (s : String) : List String :=
  (splitComma s.toList).map (fun cs => String.mk cs)

/-- The whitespace class `str.strip()` removes. -/
def isPyWhitespace (c : Char) : Bool :=
  c == ' ' || c == '\t' || c == '\n' || c == '\r' || c == '\x0b' || c == '\x0c'

/-- Python `token.strip()`: drop leading and trailing whitespace. -/
def pyStrip (s : String) : String :=
  String.mk
    (((s.toList.dropWhile isPyWhitespace).reverse.dropWhile
        isPyWhitespace).reverse)

/-- `find_items_by_identifier` from `utils.py` (lines 327-371): split the
expression on commas, strip each token, and append at most one match per
token in token order. -/
def find_items_by_identifier (getId getName : α → Option String)
    (items : List α) (identifiers : String) : List α :=
  ((pySplitComma identifiers).map pyStrip).filterMap
    (resolveToken getId getName items)

/-! ## ItemOperationExecutor: `utils.execute_items_operation`

The function returns `None` in Python; what the claims are about is which
items are dispatched and the counters of the final tally line, so the model
returns those.  `success_count` and the final `processed_count` are sums
over the dispatched items and do not depend on the completion order of
`as_completed`, so no order parameter is needed here.  A handler returns a
`Bool` or raises. -/

structure OpResult (α : Type) where
  status : String
  dispatched : List α
  successCount : Nat
  processedCount : Nat
  totalCount : Nat

/-- Exact-key lookup in a Python dict built from the given pairs (a later
pair with the same key overwrites an earlier one). -/
def dictLookup (pairs : List (String × β)) (k : String) : Option β :=
  (pairs.reverse.find? (fun p => p.1 == k)).map (fun p => p.2)

/-- `str.lower()`, character by character. -/
def pyLower (s : String) : String := String.mk (s.toList.map Char.toLower)

/-- `item.get('cloud', '').lower()` : the dispatch key derived from an
item's provider tag. -/
def cloudKey (getCloud : α → Option String) (it : α) : String :=
  pyLower ((getCloud it).getD "")

/-- Equality of two strings ignoring letter case, the relation the spec
uses when it calls the handler-map lookup "case-insensitive". -/
def caseInsensitiveEq (s t : String) : Bool := pyLower s == pyLower t

/-- Whether the dispatched call for an item increments `success_count`:
its handler returned `True`; a `False` return or a raised exception adds
nothing. -/
def handlerSucceeds {α : Type} (getCloud : α → Option String)
    (ops : List (String × (α → Except String Bool))) (it : α) : Bool :=
  match dictLookup ops (cloudKey getCloud it) with
  | some handler =>
      match handler it with
      | .ok b => b
      | .error _ => false
  | none => false

/-- `execute_items_operation` from `utils.py` (lines 445-506).
`confirmAnswer` is the value the confirmation collaborator
(`confirm_action`) would return; it is consulted only when `confirm` is
true.  `status` records which of the three exits was taken: the empty-list
early return, the cancellation return, or the completed run with its final
tally `successCount out of totalCount`. -/
def execute_items_operation (getCloud : α → Option String) (items : List α)
    (ops : List (String × (α → Except String Bool)))
    (confirm : Bool) (confirmAnswer : Bool) : OpResult α :=
  if items.isEmpty then ⟨"empty", [], 0, 0, 0⟩
  else if confirm && !confirmAnswer then ⟨"cancelled", [], 0, 0, 0⟩
  else
    let dispatched :=
      items.filter (fun it => (dictLookup ops (cloudKey getCloud it)).isSome)
    ⟨"completed", dispatched,
      dispatched.countP (handlerSucceeds getCloud ops),
      dispatched.length, items.length⟩

/-! ## TaskBuilder: `awssvc.session.build_discovery_tasks`

`get_profiles()` may raise (outer try) and `get_regions(profile)` may raise
(inner try); both are modelled with `Except String`.  A task records its
`args` pair `(profile, region)` and the logging context; the `func` field
is the one caller-supplied discovery function on every task and carries no
information, so it is not part of the record. -/

structure AwsTask where
  profile : String
  region : String
  ctxCloud : String
  ctxLocation : String
  ctxResource : String
  deriving Repr, DecidableEq

/-- The task dict appended for one profile-region pair (lines 115-123 of
`awssvc/session.py`). -/
def mkAwsTask (p r resourceName : String) : AwsTask :=
  ⟨p, r, "aws", p ++ " " ++ r, resourceName⟩

/-- The loop body of `build_discovery_tasks` (`awssvc/session.py` lines
111-125) for one profile: when `get_regions(profile)` succeeds it appends
one task per region, and when it raises the inner `except` logs and leaves
the accumulated tasks unchanged, skipping only that profile. -/
def bdtStep (getRegions : String → Except String (List String))
    (resourceName : String) (acc : List AwsTask) (p : String) : List AwsTask :=
  match getRegions p with
  | .ok regions => acc ++ regions.map (fun r => mkAwsTask p r resourceName)
  | .error _ => acc

/-- The whole of `build_discovery_tasks`: outer `try` around `get_profiles`,
early return on an empty profile list, then the per-profile loop
(`bdtStep`). -/
def build_discovery_tasks (profilesResult : Except String (List String))
    (getRegions : String → Except String (List String))
    (resourceName : String) : List AwsTask :=
  match profilesResult with
  | .error _ => []
  | .ok profiles =>
      if profiles.isEmpty then []
      else profiles.foldl (bdtStep getRegions resourceName) []

end CspResources

namespace CspResources

/-! Generic fold lemmas shared by the executors. -/

theorem edt_foldl_append (tasks : List (Except String (List α))) (acc : List α) :
    tasks.foldl
      (fun acc t =>
        match t with
        | .ok resources => acc ++ resources
        | .error _ => acc)
      acc = acc ++ (tasks.filterMap taskItems).flatten := by
  induction tasks generalizing acc with
  | nil => simp
  | cons t rest ih =>
    cases t with
    | ok rs => simp [taskItems, ih, List.append_assoc]
    | error e => simp [taskItems, ih]

/-- The executor's result is the concatenation of the successful tasks'
result lists, in completion order. -/
theorem execute_discovery_tasks_eq (tasks : List (Except String (List α))) :
    execute_discovery_tasks tasks = (tasks.filterMap taskItems).flatten := by
  simpa using edt_foldl_append tasks []

/-- C1: `execute_discovery_tasks` returns exactly the concatenation of the
result lists of the tasks that did not raise: a raising task contributes
zero items and blocks nothing, the output length is the sum of the
successful tasks' result lengths and is invariant under any permutation of
the completion order, and each successful task's result list appears inside
the output contiguously with its internal order preserved. -/
theorem discoveryExecutor_concat_isolation
    (tasks tasksPerm : List (Except String (List α)))
    (hperm : tasks.Perm tasksPerm) :
    execute_discovery_tasks tasks = (tasks.filterMap taskItems).flatten ∧
    (execute_discovery_tasks tasks).length
      = ((tasks.filterMap taskItems).map List.length).sum ∧
    (execute_discovery_tasks tasksPerm).length
      = (execute_discovery_tasks tasks).length ∧
    ∀ rs : List α, (Except.ok rs : Except String (List α)) ∈ tasks →
      rs <:+: execute_discovery_tasks tasks := by
  refine ⟨execute_discovery_tasks_eq tasks, ?_, ?_, ?_⟩
  · rw [execute_discovery_tasks_eq, List.length_flatten]
  · rw [execute_discovery_tasks_eq, execute_discovery_tasks_eq,
      List.length_flatten, List.length_flatten]
    exact ((hperm.filterMap taskItems).map List.length).sum_eq.symm
  · intro rs hmem
    rw [execute_discovery_tasks_eq]
    exact List.infix_of_mem_flatten (List.mem_filterMap.mpr ⟨.ok rs, hmem, rfl⟩)

/-- Witness for C1 at three concrete tasks, the middle one raising, and a
permuted completion order. -/
theorem discoveryExecutor_concat_isolation_witness :
    execute_discovery_tasks
        [Except.ok [1, 2], Except.error "boom", Except.ok [3]] = ([1, 2, 3] : List Nat) ∧
    (execute_discovery_tasks
        [Except.error "boom", Except.ok [1, 2], Except.ok ([3] : List Nat)]).length
      = (execute_discovery_tasks
          [Except.ok [1, 2], Except.error "boom", Except.ok ([3] : List Nat)]).length ∧
    [1, 2] <:+: execute_discovery_tasks
        [Except.ok [1, 2], Except.error "boom", Except.ok ([3] : List Nat)] := by
  have h := discoveryExecutor_concat_isolation
    [Except.ok [1, 2], Except.error "boom", Except.ok ([3] : List Nat)]
    [Except.error "boom", Except.ok [1, 2], Except.ok [3]]
    (List.Perm.swap _ _ _)
  refine ⟨?_, h.2.2.1, h.2.2.2 [1, 2] (List.Mem.head _)⟩
  rw [h.1]
  rfl

/-! ## CloudAggregator theorems -/

theorem dac_foldl_eq (provs : List (String × Except String (List α)))
    (accI : List α) (accS : List (String × ProviderStats)) :
    provs.foldl dacStep (accI, accS)
    = (accI ++ (provs.filterMap (fun p => taskItems p.2)).flatten,
       accS ++ provs.map (fun p => (p.1, providerStatsOf p.2))) := by
  induction provs generalizing accI accS with
  | nil => simp
  | cons p rest ih =>
    obtain ⟨n, r⟩ := p
    cases r with
    | ok rs => simp [dacStep, taskItems, providerStatsOf, ih, List.append_assoc]
    | error e => simp [dacStep, taskItems, providerStatsOf, ih]

theorem discover_across_clouds_items (provs : List (String × Except String (List α))) :
    (discover_across_clouds provs).items
      = (provs.filterMap (fun p => taskItems p.2)).flatten := by
  show (provs.foldl dacStep ([], [])).1 = _
  rw [dac_foldl_eq]
  simp

theorem discover_across_clouds_cloudStats
    (provs : List (String × Except String (List α))) :
    (discover_across_clouds provs).cloudStats
      = provs.map (fun p => (p.1, providerStatsOf p.2)) := by
  show (provs.foldl dacStep ([], [])).2 = _
  rw [dac_foldl_eq]
  simp

theorem discover_across_clouds_allStats
    (provs : List (String × Except String (List α))) :
    (discover_across_clouds provs).allStats
      = ⟨"success", (discover_across_clouds provs).items.length, none⟩ := by
  rfl

theorem stats_count_sum (provs : List (String × Except String (List α))) :
    (provs.map (fun p => (providerStatsOf p.2).count)).sum
      = ((provs.filterMap (fun p => taskItems p.2)).map List.length).sum := by
  induction provs with
  | nil => rfl
  | cons p rest ih =>
    obtain ⟨n, r⟩ := p
    cases r <;> simpa [providerStatsOf, taskItems] using ih

/-- C2: `discover_across_clouds` writes one stats record per provider,
`success` with the provider's item count when its function returns and
`failed` with count 0 and the error text when it raises; the aggregate
record's count is the merged item list's length, equal to the sum of the
per-provider counts (failed providers contributing 0), and its status is
`success` no matter how many providers failed. -/
theorem cloudAggregator_stats_spec (provs : List (String × Except String (List α))) :
    (discover_across_clouds provs).cloudStats
      = provs.map (fun p => (p.1, providerStatsOf p.2)) ∧
    (∀ n (rs : List α), (n, Except.ok rs) ∈ provs →
      (n, (⟨"success", rs.length, none⟩ : ProviderStats))
        ∈ (discover_across_clouds provs).cloudStats) ∧
    (∀ n e, (n, (Except.error e : Except String (List α))) ∈ provs →
      (n, (⟨"failed", 0, some e⟩ : ProviderStats))
        ∈ (discover_across_clouds provs).cloudStats) ∧
    (discover_across_clouds provs).allStats.count
      = (discover_across_clouds provs).items.length ∧
    (discover_across_clouds provs).allStats.count
      = ((discover_across_clouds provs).cloudStats.map
          (fun s => s.2.count)).sum ∧
    (discover_across_clouds provs).allStats.status = "success" := by
  refine ⟨discover_across_clouds_cloudStats provs, ?_, ?_, ?_, ?_, ?_⟩
  · intro n rs hmem
    rw [discover_across_clouds_cloudStats]
    exact List.mem_map.mpr ⟨(n, Except.ok rs), hmem, rfl⟩
  · intro n e hmem
    rw [discover_across_clouds_cloudStats]
    exact List.mem_map.mpr ⟨(n, Except.error e), hmem, rfl⟩
  · rw [discover_across_clouds_allStats]
  · rw [discover_across_clouds_allStats, discover_across_clouds_cloudStats,
      discover_across_clouds_items, List.length_flatten, List.map_map]
    exact (stats_count_sum provs).symm
  · rw [discover_across_clouds_allStats]

/-- Witness for C2 at three concrete providers, one failing. -/
theorem cloudAggregator_stats_spec_witness :
    ("aws", (⟨"success", 2, none⟩ : ProviderStats))
      ∈ (discover_across_clouds
          [("aws", Except.ok [10, 20]), ("azure", Except.error "boom"),
           ("gcp", Except.ok ([30] : List Nat))]).cloudStats ∧
    ("azure", (⟨"failed", 0, some "boom"⟩ : ProviderStats))
      ∈ (discover_across_clouds
          [("aws", Except.ok [10, 20]), ("azure", Except.error "boom"),
           ("gcp", Except.ok ([30] : List Nat))]).cloudStats ∧
    (discover_across_clouds
        [("aws", Except.ok [10, 20]), ("azure", Except.error "boom"),
         ("gcp", Except.ok ([30] : List Nat))]).allStats.count = 3 ∧
    (discover_across_clouds
        [("aws", Except.ok [10, 20]), ("azure", Except.error "boom"),
         ("gcp", Except.ok ([30] : List Nat))]).allStats.status = "success" := by
  have h := cloudAggregator_stats_spec
    [("aws", Except.ok [10, 20]), ("azure", Except.error "boom"),
     ("gcp", Except.ok ([30] : List Nat))]
  refine ⟨h.2.1 "aws" [10, 20] (List.Mem.head _), ?_, ?_, h.2.2.2.2.2⟩
  · exact h.2.2.1 "azure" "boom" (List.Mem.tail _ (List.Mem.head _))
  · rw [h.2.2.2.1, discover_across_clouds_items]
    rfl

/-! ## TaskBuilder theorems -/

theorem bdt_foldl_eq (getRegions : String → Except String (List String))
    (resourceName : String) (profiles : List String) (acc : List AwsTask) :
    profiles.foldl (bdtStep getRegions resourceName) acc
    = acc ++ (profiles.map (fun p =>
        match getRegions p with
        | .ok regions => regions.map (fun r => mkAwsTask p r resourceName)
        | .error _ => [])).flatten := by
  induction profiles generalizing acc with
  | nil => simp
  | cons p rest ih =>
    cases hgr : getRegions p with
    | ok regions => simp [bdtStep, hgr, ih, List.append_assoc]
    | error e => simp [bdtStep, hgr, ih]

/-- C7: `build_discovery_tasks` concatenates, profile by profile, one task
per region of each profile whose region enumeration succeeds; a profile
whose enumeration raises contributes the empty block and the other
profiles' tasks are all still built, and an empty top-level profile list
yields the empty task list without any error. -/
theorem taskBuilder_skip_isolation (profiles : List String)
    (getRegions : String → Except String (List String)) (resourceName : String) :
    build_discovery_tasks (Except.ok profiles) getRegions resourceName
      = (profiles.map (fun p =>
          match getRegions p with
          | .ok regions => regions.map (fun r => mkAwsTask p r resourceName)
          | .error _ => [])).flatten ∧
    build_discovery_tasks (Except.ok []) getRegions resourceName = [] ∧
    ∀ p regions, p ∈ profiles → getRegions p = Except.ok regions →
      ∀ r ∈ regions,
        mkAwsTask p r resourceName
          ∈ build_discovery_tasks (Except.ok profiles) getRegions resourceName := by
  have hmain :
      build_discovery_tasks (Except.ok profiles) getRegions resourceName
        = (profiles.map (fun p =>
            match getRegions p with
            | .ok regions => regions.map (fun r => mkAwsTask p r resourceName)
            | .error _ => [])).flatten := by
    cases profiles with
    | nil => simp [build_discovery_tasks]
    | cons q qs =>
      have hb : build_discovery_tasks (Except.ok (q :: qs)) getRegions resourceName
          = (q :: qs).foldl (bdtStep getRegions resourceName) [] := rfl
      rw [hb, bdt_foldl_eq]
      simp
  refine ⟨hmain, by simp [build_discovery_tasks], ?_⟩
  intro p regions hp hgr r hr
  rw [hmain]
  refine List.mem_flatten.mpr
    ⟨regions.map (fun r => mkAwsTask p r resourceName), ?_, ?_⟩
  · exact List.mem_map.mpr ⟨p, hp, by rw [hgr]⟩
  · exact List.mem_map.mpr ⟨r, hr, rfl⟩

/-- Witness for C7: one profile enumerates two regions, the other raises;
only the failing profile is skipped, and the empty profile list yields no
tasks. -/
theorem taskBuilder_skip_isolation_witness :
    build_discovery_tasks (Except.ok ["dev", "prod"])
        (fun p => if p = "prod" then Except.error "boom"
                  else Except.ok ["us-east-1", "eu-west-1"]) "vm"
      = [mkAwsTask "dev" "us-east-1" "vm", mkAwsTask "dev" "eu-west-1" "vm"] ∧
    build_discovery_tasks (Except.ok [])
        (fun p => if p = "prod" then Except.error "boom"
                  else Except.ok ["us-east-1", "eu-west-1"]) "vm" = [] ∧
    mkAwsTask "dev" "us-east-1" "vm"
      ∈ build_discovery_tasks (Except.ok ["dev", "prod"])
          (fun p => if p = "prod" then Except.error "boom"
                    else Except.ok ["us-east-1", "eu-west-1"]) "vm" := by
  have h := taskBuilder_skip_isolation ["dev", "prod"]
    (fun p => if p = "prod" then Except.error "boom"
              else Except.ok ["us-east-1", "eu-west-1"]) "vm"
  refine ⟨?_, h.2.1, h.2.2 "dev" ["us-east-1", "eu-west-1"]
    (List.Mem.head _) (by simp) "us-east-1" (List.Mem.head _)⟩
  rw [h.1]
  rfl

/-! ## IdentifierResolver theorems -/

theorem resolveToken_int (getId getName : α → Option String) (items : List α)
    (tok : String) (n : Int) (hp : pyParseInt tok = some n) :
    resolveToken getId getName items tok
      = if 1 ≤ n ∧ n ≤ (items.length : Int) then items.get? (n - 1).toNat
        else none := by
  simp [resolveToken, hp]

theorem resolveToken_not_int (getId getName : α → Option String) (items : List α)
    (tok : String) (hp : pyParseInt tok = none) :
    resolveToken getId getName items tok
      = (fieldMapLookup getId items tok).or (fieldMapLookup getName items tok) := by
  simp [resolveToken, hp]

theorem fieldMapLookup_none (get : α → Option String) (items : List α)
    (tok : String) (h : ∀ it ∈ items, get it ≠ some tok) :
    fieldMapLookup get items tok = none := by
  apply List.find?_eq_none.mpr
  intro it hit
  have hmem : it ∈ items :=
    (List.mem_filter.mp (List.mem_reverse.mp hit)).1
  simpa using h it hmem

theorem fieldMapLookup_mem {get : α → Option String} {items : List α}
    {tok : String} {x : α} (h : fieldMapLookup get items tok = some x) :
    x ∈ items :=
  (List.mem_filter.mp (List.mem_reverse.mp (List.mem_of_find?_eq_some h))).1

theorem resolveToken_mem {getId getName : α → Option String} {items : List α}
    {tok : String} {x : α}
    (h : resolveToken getId getName items tok = some x) : x ∈ items := by
  cases hp : pyParseInt tok with
  | some n =>
    rw [resolveToken_int getId getName items tok n hp] at h
    split at h
    · exact List.get?_mem h
    · cases h
  | none =>
    rw [resolveToken_not_int getId getName items tok hp] at h
    cases hid : fieldMapLookup getId items tok with
    | some it =>
      rw [hid] at h
      simp only [Option.or] at h
      cases h
      exact fieldMapLookup_mem hid
    | none =>
      rw [hid] at h
      simp only [Option.or] at h
      exact fieldMapLookup_mem h

/-- C5: the output of `find_items_by_identifier` follows the order of the
identifiers, not the order of the candidate list — on any list of at least
three candidates the expression "3,1" selects the third then the first
candidate — and a repeated identifier ("1,1") yields a repeated entry. -/
theorem identifierResolver_order (getId getName : α → Option String)
    (items : List α) (h : 3 ≤ items.length) :
    find_items_by_identifier getId getName items "3,1"
      = [items.get ⟨2, by omega⟩, items.get ⟨0, by omega⟩] ∧
    find_items_by_identifier getId getName items "1,1"
      = [items.get ⟨0, by omega⟩, items.get ⟨0, by omega⟩] := by
  have h3 : resolveToken getId getName items "3"
      = some (items.get ⟨2, by omega⟩) := by
    rw [resolveToken_int getId getName items "3" 3 rfl,
      if_pos ⟨by norm_num, by exact_mod_cast h⟩]
    have hidx : ((3 : Int) - 1).toNat = 2 := by decide
    rw [hidx, List.get?_eq_get (by omega)]
  have h1 : resolveToken getId getName items "1"
      = some (items.get ⟨0, by omega⟩) := by
    rw [resolveToken_int getId getName items "1" 1 rfl,
      if_pos ⟨by norm_num, by exact_mod_cast Nat.le_of_succ_le (Nat.le_of_succ_le h)⟩]
    have hidx : ((1 : Int) - 1).toNat = 0 := by decide
    rw [hidx, List.get?_eq_get (by omega)]
  have hsplit31 : (pySplitComma "3,1").map pyStrip = ["3", "1"] := rfl
  have hsplit11 : (pySplitComma "1,1").map pyStrip = ["1", "1"] := rfl
  constructor
  · simp only [find_items_by_identifier]
    rw [hsplit31]
    simp [List.filterMap_cons, h3, h1]
  · simp only [find_items_by_identifier]
    rw [hsplit11]
    simp [List.filterMap_cons, h1]

/-- Witness for C5 on a concrete three-candidate list. -/
theorem identifierResolver_order_witness :
    find_items_by_identifier (fun p : String × String => some p.1)
        (fun p => some p.2) [("a", "x"), ("b", "y"), ("c", "z")] "3,1"
      = [("c", "z"), ("a", "x")] ∧
    find_items_by_identifier (fun p : String × String => some p.1)
        (fun p => some p.2) [("a", "x"), ("b", "y"), ("c", "z")] "1,1"
      = [("a", "x"), ("a", "x")] := by
  have h := identifierResolver_order (fun p : String × String => some p.1)
    (fun p => some p.2) [("a", "x"), ("b", "y"), ("c", "z")] (by decide)
  exact ⟨h.1.trans rfl, h.2.trans rfl⟩

/-- C6: no token can make `find_items_by_identifier` fail: an integer token
out of range resolves to nothing, a non-integer token is resolved by the id
map first and the name map second, a token missing everywhere resolves to
nothing, and on a three-candidate list where "zz" matches no id and no
name, the expression "99,zz" returns the empty list. -/
theorem identifierResolver_miss_safe (getId getName : α → Option String)
    (items : List α) :
    (∀ tok (n : Int), pyParseInt tok = some n →
      ¬(1 ≤ n ∧ n ≤ (items.length : Int)) →
      resolveToken getId getName items tok = none) ∧
    (∀ tok a, pyParseInt tok = none →
      fieldMapLookup getId items tok = some a →
      resolveToken getId getName items tok = some a) ∧
    (∀ tok, pyParseInt tok = none →
      fieldMapLookup getId items tok = none →
      resolveToken getId getName items tok = fieldMapLookup getName items tok) ∧
    (items.length = 3 →
      (∀ it ∈ items, getId it ≠ some "zz" ∧ getName it ≠ some "zz") →
      find_items_by_identifier getId getName items "99,zz" = []) := by
  refine ⟨?_, ?_, ?_, ?_⟩
  · intro tok n hp hno
    rw [resolveToken_int getId getName items tok n hp, if_neg hno]
  · intro tok a hp hid
    rw [resolveToken_not_int getId getName items tok hp, hid]
    rfl
  · intro tok hp hid
    rw [resolveToken_not_int getId getName items tok hp, hid]
    rfl
  · intro hlen hmiss
    have h99 : resolveToken getId getName items "99" = none := by
      rw [resolveToken_int getId getName items "99" 99 rfl, if_neg]
      rw [hlen]
      decide
    have hzz : resolveToken getId getName items "zz" = none := by
      rw [resolveToken_not_int getId getName items "zz" rfl,
        fieldMapLookup_none getId items "zz" (fun it hit => (hmiss it hit).1),
        fieldMapLookup_none getName items "zz" (fun it hit => (hmiss it hit).2)]
      rfl
    have hsplit : (pySplitComma "99,zz").map pyStrip = ["99", "zz"] := rfl
    simp only [find_items_by_identifier]
    rw [hsplit]
    simp [List.filterMap_cons, h99, hzz]

/-- Witness for C6: the all-miss expression "99,zz" on a concrete
three-candidate list yields the empty list, and token "99" alone resolves
to nothing. -/
theorem identifierResolver_miss_safe_witness :
    resolveToken (fun p : String × String => some p.1) (fun p => some p.2)
        [("a", "x"), ("b", "y"), ("c", "z")] "99" = none ∧
    find_items_by_identifier (fun p : String × String => some p.1)
        (fun p => some p.2) [("a", "x"), ("b", "y"), ("c", "z")] "99,zz"
      = [] := by
  have h := identifierResolver_miss_safe (fun p : String × String => some p.1)
    (fun p => some p.2) [("a", "x"), ("b", "y"), ("c", "z")]
  exact ⟨h.1 "99" 99 rfl (by decide), h.2.2.2 rfl (by decide)⟩

/-- C10: a token that parses as a decimal integer is resolved purely as a
1-based position — in range it selects that position's candidate and out of
range it selects nothing — and the result does not depend on the id or name
projections at all, so a candidate whose id or name is an integer-formatted
string can never be selected through those fields. -/
theorem integer_token_positional_only (getId getName gId gName : α → Option String)
    (items : List α) (tok : String) (n : Int)
    (hp : pyParseInt tok = some n) :
    resolveToken getId getName items tok
      = (if 1 ≤ n ∧ n ≤ (items.length : Int) then items.get? (n - 1).toNat
         else none) ∧
    resolveToken getId getName items tok
      = resolveToken gId gName items tok := by
  refine ⟨resolveToken_int getId getName items tok n hp, ?_⟩
  rw [resolveToken_int getId getName items tok n hp,
    resolveToken_int gId gName items tok n hp]

/-- Witness for C10: token "2" against a list whose first candidate has id
"2" selects the second candidate by position, ignoring the id field, and
erasing the id/name projections entirely does not change the result. -/
theorem integer_token_positional_only_witness :
    resolveToken (fun p : String × String => some p.1) (fun p => some p.2)
        [("2", "b"), ("x", "y")] "2" = some ("x", "y") ∧
    resolveToken (fun p : String × String => some p.1) (fun p => some p.2)
        [("2", "b"), ("x", "y")] "2"
      = resolveToken (fun _ : String × String => none) (fun _ => none)
          [("2", "b"), ("x", "y")] "2" := by
  have h := integer_token_positional_only
    (fun p : String × String => some p.1) (fun p => some p.2)
    (fun _ => none) (fun _ => none) [("2", "b"), ("x", "y")] "2" 2 rfl
  exact ⟨h.1.trans (by decide), h.2⟩

/-! ## ItemOperationExecutor theorems -/

theorem eio_completed (getCloud : α → Option String) (items : List α)
    (ops : List (String × (α → Except String Bool)))
    (confirm confirmAnswer : Bool) (hne : items ≠ [])
    (hc : (confirm && !confirmAnswer) = false) :
    execute_items_operation getCloud items ops confirm confirmAnswer
      = ⟨"completed",
         items.filter (fun it => (dictLookup ops (cloudKey getCloud it)).isSome),
         (items.filter
            (fun it => (dictLookup ops (cloudKey getCloud it)).isSome)).countP
           (handlerSucceeds getCloud ops),
         (items.filter
            (fun it => (dictLookup ops (cloudKey getCloud it)).isSome)).length,
         items.length⟩ := by
  have h1 : items.isEmpty = false := by
    cases items with
    | nil => exact absurd rfl hne
    | cons a l => rfl
  simp [execute_items_operation, h1, hc]

/-- C4: with a non-empty item list, `confirm` true and the confirmation
collaborator answering false, `execute_items_operation` aborts: nothing is
dispatched, no handler receives any item, and the success and processed
counters stay at zero. -/
theorem confirmation_abort (getCloud : α → Option String) (items : List α)
    (ops : List (String × (α → Except String Bool))) (hne : items ≠ []) :
    execute_items_operation getCloud items ops true false
      = ⟨"cancelled", [], 0, 0, 0⟩ := by
  have h1 : items.isEmpty = false := by
    cases items with
    | nil => exact absurd rfl hne
    | cons a l => rfl
  simp [execute_items_operation, h1]

/-- Witness for C4 on one concrete item. -/
theorem confirmation_abort_witness :
    execute_items_operation (fun p : String × String => some p.2)
        [("vm1", "aws")] [("aws", fun _ => Except.ok true)] true false
      = ⟨"cancelled", [], 0, 0, 0⟩ :=
  confirmation_abort _ _ _ (by simp)

/-- C3 as stated fails on the code: with one "aws" item whose handler
succeeds and one item carrying the unknown tag "zzz", the skipped item is
indeed not dispatched and not counted as a success, but the final tally is
success 1 out of total 2 — `total_count = len(items)` includes the skipped
item instead of ranging over dispatched items only. -/
theorem tally_total_counterexample :
    (execute_items_operation (fun p : String × String => some p.2)
        [("vm1", "aws"), ("vm2", "zzz")]
        [("aws", fun _ => Except.ok true)] false true).dispatched
      = [("vm1", "aws")] ∧
    (execute_items_operation (fun p : String × String => some p.2)
        [("vm1", "aws"), ("vm2", "zzz")]
        [("aws", fun _ => Except.ok true)] false true).successCount = 1 ∧
    (execute_items_operation (fun p : String × String => some p.2)
        [("vm1", "aws"), ("vm2", "zzz")]
        [("aws", fun _ => Except.ok true)] false true).totalCount = 2 :=
  ⟨rfl, rfl, rfl⟩

/-- C3 amended: an item whose provider tag is absent from the handler map
is not dispatched and is excluded from the success count and the processed
count, which range over dispatched items only; the total of the logged
final tally, however, is the full input length, skipped items included. -/
theorem tally_total_amended (getCloud : α → Option String) (items : List α)
    (ops : List (String × (α → Except String Bool))) (x : α)
    (hne : items ≠ [])
    (hmiss : dictLookup ops (cloudKey getCloud x) = none) :
    x ∉ (execute_items_operation getCloud items ops false true).dispatched ∧
    (execute_items_operation getCloud items ops false true).successCount
      = ((execute_items_operation getCloud items ops false
            true).dispatched).countP (handlerSucceeds getCloud ops) ∧
    (execute_items_operation getCloud items ops false true).processedCount
      = ((execute_items_operation getCloud items ops false
            true).dispatched).length ∧
    (execute_items_operation getCloud items ops false true).totalCount
      = items.length := by
  rw [eio_completed getCloud items ops false true hne rfl]
  refine ⟨?_, rfl, rfl, rfl⟩
  intro hx
  have hp := (List.mem_filter.mp hx).2
  rw [hmiss] at hp
  exact absurd hp (by simp)

/-- Witness for the amended C3 at the counterexample input. -/
theorem tally_total_amended_witness :
    ("vm2", "zzz") ∉ (execute_items_operation
        (fun p : String × String => some p.2)
        [("vm1", "aws"), ("vm2", "zzz")]
        [("aws", fun _ => Except.ok true)] false true).dispatched ∧
    (execute_items_operation (fun p : String × String => some p.2)
        [("vm1", "aws"), ("vm2", "zzz")]
        [("aws", fun _ => Except.ok true)] false true).totalCount = 2 := by
  have h := tally_total_amended (fun p : String × String => some p.2)
    [("vm1", "aws"), ("vm2", "zzz")] [("aws", fun _ => Except.ok true)]
    ("vm2", "zzz") (by simp) rfl
  exact ⟨h.1, h.2.2.2.trans rfl⟩

/-- C8 as stated fails on the code: only the item's tag is lowercased and
the handler-map keys are matched exactly, so an item tagged "AWS" and a
handler map whose only key is "AWS" — tag and key equal ignoring case —
dispatch nothing. -/
theorem dispatch_case_counterexample :
    caseInsensitiveEq "AWS" "AWS" = true ∧
    (execute_items_operation (fun p : String × String => some p.2)
        [("vm1", "AWS")] [("AWS", fun _ => Except.ok true)]
        false true).dispatched = [] :=
  ⟨rfl, rfl⟩

theorem dictLookup_isSome (pairs : List (String × β)) (k : String) :
    (dictLookup pairs k).isSome = true ↔ ∃ p ∈ pairs, p.1 = k := by
  simp [dictLookup, List.find?_isSome, List.mem_reverse]

/-- C8 amended: dispatch lowercases only the item's provider tag and then
requires an exact handler-map key match, so an item is dispatched exactly
when its lowercased tag is a key of the map; when every handler-map key is
lowercase (as all call sites write them) this coincides with
case-insensitive matching of the tag against the keys. -/
theorem dispatch_case_amended (getCloud : α → Option String) (items : List α)
    (ops : List (String × (α → Except String Bool))) (x : α)
    (hx : x ∈ items)
    (hkeys : ∀ p ∈ ops, pyLower p.1 = p.1) :
    (x ∈ (execute_items_operation getCloud items ops false true).dispatched
      ↔ (dictLookup ops (cloudKey getCloud x)).isSome = true) ∧
    ((dictLookup ops (cloudKey getCloud x)).isSome = true
      ↔ ∃ p ∈ ops, caseInsensitiveEq ((getCloud x).getD "") p.1 = true) := by
  have hne : items ≠ [] := by
    intro h
    rw [h] at hx
    exact absurd hx (List.not_mem_nil x)
  constructor
  · rw [eio_completed getCloud items ops false true hne rfl]
    show x ∈ items.filter _ ↔ _
    rw [List.mem_filter]
    simp [hx]
  · rw [dictLookup_isSome]
    constructor
    · rintro ⟨p, hp, heq⟩
      refine ⟨p, hp, ?_⟩
      show (pyLower ((getCloud x).getD "") == pyLower p.1) = true
      rw [hkeys p hp, heq]
      exact beq_self_eq_true _
    · rintro ⟨p, hp, hci⟩
      refine ⟨p, hp, ?_⟩
      have hci2 : (pyLower ((getCloud x).getD "") == pyLower p.1) = true := hci
      rw [hkeys p hp] at hci2
      exact (eq_of_beq hci2).symm

/-- Witness for the amended C8: with the lowercase key "aws" an item tagged
"AWS" is dispatched. -/
theorem dispatch_case_amended_witness :
    ("vm1", "AWS") ∈ (execute_items_operation
        (fun p : String × String => some p.2) [("vm1", "AWS")]
        [("aws", fun _ => Except.ok true)] false true).dispatched := by
  have h := dispatch_case_amended (fun p : String × String => some p.2)
    [("vm1", "AWS")] [("aws", fun _ => Except.ok true)] ("vm1", "AWS")
    (List.Mem.head _)
    (by
      rintro p hp
      rcases List.mem_singleton.mp hp with rfl
      rfl)
  exact h.1.mpr rfl

/-! ## Frame property -/

/-- C9: the core routes the caller's records themselves, never rebuilding
or altering them: every element of `find_items_by_identifier`'s output is
an element of the candidate list (the very record, every field intact, the
candidate list itself untouched), and every item `execute_items_operation`
dispatches is an element of its input list, passed to the handler
unmodified. -/
theorem core_items_unmodified (getId getName getCloud : α → Option String)
    (items : List α) (identifiers : String)
    (ops : List (String × (α → Except String Bool)))
    (confirm confirmAnswer : Bool) :
    (∀ x ∈ find_items_by_identifier getId getName items identifiers,
      x ∈ items) ∧
    (∀ x ∈ (execute_items_operation getCloud items ops confirm
        confirmAnswer).dispatched, x ∈ items) := by
  constructor
  · intro x hx
    obtain ⟨tok, _, hres⟩ := List.mem_filterMap.mp hx
    exact resolveToken_mem hres
  · intro x hx
    by_cases hne : items = []
    · subst hne
      simp [execute_items_operation] at hx
    · by_cases hcc : (confirm && !confirmAnswer) = true
      · have hcanc : execute_items_operation getCloud items ops confirm
            confirmAnswer = ⟨"cancelled", [], 0, 0, 0⟩ := by
          have h1 : items.isEmpty = false := by
            cases items with
            | nil => exact absurd rfl hne
            | cons a l => rfl
          simp [execute_items_operation, h1, hcc]
        rw [hcanc] at hx
        exact absurd hx (List.not_mem_nil x)
      · have h2 : (confirm && !confirmAnswer) = false := by
          revert hcc
          cases (confirm && !confirmAnswer) <;> simp
        rw [eio_completed getCloud items ops confirm confirmAnswer hne h2] at hx
        exact (List.mem_filter.mp hx).1

/-- Witness for C9: the record selected by index "2" and the dispatched
"aws" record are both elements of the concrete input list. -/
theorem core_items_unmodified_witness :
    ("vm2", "zzz") ∈ ([("vm1", "aws"), ("vm2", "zzz")] : List (String × String)) ∧
    ("vm1", "aws") ∈ ([("vm1", "aws"), ("vm2", "zzz")] : List (String × String)) := by
  have h := core_items_unmodified (fun p : String × String => some p.1)
    (fun p => some p.2) (fun p => some p.2)
    [("vm1", "aws"), ("vm2", "zzz")] "2" [("aws", fun _ => Except.ok true)]
    false true
  exact ⟨h.1 ("vm2", "zzz") (by decide), h.2 ("vm1", "aws") (by decide)⟩

end CspResources
